import Mathlib

/-!
Shallow embedding of the realtime audio recognizer.

The Python sources embedded here are `audio_recorder.py` (class
`AudioRecorder`: ring buffer of audio chunks, capture-thread lifecycle,
read-error handling, trailing-window extraction) and
`shazam_realtime_recognizer.py` (class `ShazamRealtimeRecognizer`:
construction of the recorder and the recognition poll loop).

Conventions of the embedding:
* a byte string is a `List ℕ`; an audio chunk (one `stream.read`) is a
  `Chunk`;
* Python float arithmetic on durations is modelled exactly over `ℚ`
  (`int(x)` on a nonnegative value is `Int.toNat ⌊x⌋`);
* the capture thread and the poll task are sequentialised: thread-visible
  effects are explicit state-passing, and the poll loop is a fuel-indexed
  recursion over per-iteration inputs (recorded duration, external
  collaborator outcomes) supplied as sequences.
-/

namespace ShazamRealtime

/-- A byte string produced by one `stream.read` call. -/
abbrev Chunk := List ℕ

/-- Static configuration of `AudioRecorder` (`__init__` arguments plus the
derived `sample_width`). -/
structure AudioRecorderCfg where
  rate : ℕ
  chunk_size : ℕ
  sample_width : ℕ
  deriving DecidableEq, Repr

/-- `audio_recorder.py` line 44:
`self.buffer_max_chunks = int(self.rate / self.chunk_size * buffer_seconds)`.
For nonnegative values `int` truncation is the floor. -/
def buffer_max_chunks (rate chunk_size : ℕ) (buffer_seconds : ℤ) : ℕ :=
  (⌊(rate : ℚ) / (chunk_size : ℚ) * (buffer_seconds : ℚ)⌋).toNat

/-- One `audio_buffer.append(data)` on a `collections.deque` with
`maxlen = cap` (`audio_recorder.py` lines 47-49 and 224): the new chunk is
appended and, when the deque is full, the oldest chunk is dropped so the
length never exceeds `cap`. -/
def dequeAppend (cap : ℕ) (buf : List Chunk) (c : Chunk) : List Chunk :=
  (buf ++ [c]).drop (buf.length + 1 - cap)

/-- `audio_recorder.py` line 371:
`num_chunks_to_get = int(self.rate / self.chunk_size * duration_seconds)`,
evaluated only when `duration_seconds > 0`, so the truncation is a floor. -/
def num_chunks_to_get (cfg : AudioRecorderCfg) (duration_seconds : ℚ) : ℕ :=
  (⌊(cfg.rate : ℚ) / (cfg.chunk_size : ℚ) * duration_seconds⌋).toNat

/-- The chunk list selected by `get_recent_audio_bytes`
(`audio_recorder.py` lines 365-383).  The final branch embeds the Python
slice `list(self.audio_buffer)[-min(num_chunks_to_get, buffer_len):]`:
for a *positive* `k`, `l[-k:]` is the last `k` elements, but for `k = 0`
it is the whole list.  A zero `chunk_size` raises `ZeroDivisionError` at
line 371, caught at line 403, returning `b""`. -/
def get_recent_chunks (cfg : AudioRecorderCfg) (audio_buffer : List Chunk)
    (duration_seconds : ℚ) : List Chunk :=
  if duration_seconds ≤ 0 then []
  else if cfg.chunk_size = 0 then []
  else if audio_buffer = [] then []
  else if min (num_chunks_to_get cfg duration_seconds) audio_buffer.length = 0 then
    audio_buffer
  else
    audio_buffer.drop
      (audio_buffer.length - min (num_chunks_to_get cfg duration_seconds) audio_buffer.length)

/-- `AudioRecorder.get_recent_audio_bytes` (`audio_recorder.py` lines
354-405): the selected chunks joined with `b"".join`. -/
def get_recent_audio_bytes (cfg : AudioRecorderCfg) (audio_buffer : List Chunk)
    (duration_seconds : ℚ) : List ℕ :=
  (get_recent_chunks cfg audio_buffer duration_seconds).flatten

/-- `AudioRecorder.get_recorded_duration` (`audio_recorder.py` line 352):
`len(self.audio_buffer) * self.chunk_size / self.rate`. -/
def get_recorded_duration (cfg : AudioRecorderCfg) (audio_buffer : List Chunk) : ℚ :=
  (audio_buffer.length : ℚ) * (cfg.chunk_size : ℚ) / (cfg.rate : ℚ)

/-- Modelled from the spec: `snapshot_suffix(d)` with
`n = ceil(d × sample_rate / chunk_frames)`; take `min(n, current_length)`
most recent chunks, concatenate in append order; `d ≤ 0` or an empty
buffer give empty bytes.  This follows the spec text (which uses `ceil`)
and exists only to be compared with `get_recent_audio_bytes`, which is
translated from the source. -/
def snapshot_suffix_ceil_spec (cfg : AudioRecorderCfg) (audio_buffer : List Chunk)
    (duration_seconds : ℚ) : List ℕ :=
  if duration_seconds ≤ 0 then []
  else if audio_buffer = [] then []
  else
    let n := (⌈(cfg.rate : ℚ) / (cfg.chunk_size : ℚ) * duration_seconds⌉).toNat
    ((audio_buffer.drop (audio_buffer.length - min n audio_buffer.length)).flatten)

/-! ### Capture lifecycle (`start` / `_record_loop` prologue / `stop`) -/

/-- The thread-visible recorder state: the `_is_recording` flag, the number
of live capture threads, whether the stream/interface handles are open,
and the audio buffer. -/
structure RecorderState where
  is_recording : Bool
  task_count : ℕ
  stream_open : Bool
  audio_buffer : List Chunk
  deriving DecidableEq, Repr

/-- `AudioRecorder.start` (`audio_recorder.py` lines 291-314): returns
`False` and changes nothing when already recording; otherwise sets
`_is_recording`, spawns the capture thread and returns `True`. -/
def start (s : RecorderState) : Bool × RecorderState :=
  if s.is_recording then (false, s)
  else (true, { s with is_recording := true, task_count := s.task_count + 1 })

/-- The prologue of `AudioRecorder._record_loop` (`audio_recorder.py`
lines 191-194), run by the freshly spawned thread: `_open_stream()` is
attempted; on failure the thread clears `_is_recording` and returns
immediately (the thread exits, leaking nothing). -/
def record_loop_start (open_ok : Bool) (s : RecorderState) : RecorderState :=
  if open_ok then { s with stream_open := true }
  else { s with is_recording := false, task_count := s.task_count - 1 }

/-- One `start()` call followed by the spawned thread running the
`_record_loop` prologue to completion. -/
def start_then_open (open_ok : Bool) (s : RecorderState) : Bool × RecorderState :=
  let r := start s
  if r.1 then (r.1, record_loop_start open_ok r.2) else r

/-- `AudioRecorder._close_stream` (`audio_recorder.py` lines 113-148):
releases the stream and interface handles and clears the audio buffer. -/
def close_stream (s : RecorderState) : RecorderState :=
  { s with stream_open := false, audio_buffer := [] }

/-- `AudioRecorder.stop` (`audio_recorder.py` lines 316-342): when not
recording it returns at once without touching anything; otherwise it
clears `_is_recording`, joins the capture thread (which runs its own
`_close_stream` in its `finally` block and exits) and calls
`_close_stream`. -/
def stop (s : RecorderState) : RecorderState :=
  if s.is_recording = false then s
  else close_stream { s with is_recording := false, task_count := s.task_count - 1 }

/-- States of the recorder in which no capture is in progress satisfy
this in every reachable quiescent configuration: construction starts with
no thread, closed handles and an empty buffer, and both `stop()` and every
`_record_loop` exit path run `_close_stream` and clear `_is_recording`
before the thread dies. -/
def RecorderQuiescent (s : RecorderState) : Prop :=
  s.is_recording = false →
    s.task_count = 0 ∧ s.stream_open = false ∧ s.audio_buffer = []

/-! ### Read-error handling in the capture loop -/

/-- `audio_recorder.py` line 60: `self._max_stream_errors = 5`. -/
def max_stream_errors : ℕ := 5

/-- The `_stream_error_count` together with the number of stream-reset
attempts performed so far. -/
structure ErrCounters where
  stream_error_count : ℕ
  resets : ℕ
  deriving DecidableEq, Repr

/-- One iteration of the `IOError` accounting in `_record_loop`
(`audio_recorder.py` lines 217-262): a successful read clears
`_stream_error_count` (line 233); an `IOError` increments it (line 236)
and, only when the count *exceeds* `_max_stream_errors` (line 250,
`if self._stream_error_count > max_errors:`), `_reset_stream` is
attempted once.  A successful reset clears `read_errors` but not
`_stream_error_count` (line 259). -/
def read_step (s : ErrCounters) (read_ok : Bool) : ErrCounters :=
  if read_ok then { s with stream_error_count := 0 }
  else
    let c := s.stream_error_count + 1
    if max_stream_errors < c then { stream_error_count := c, resets := s.resets + 1 }
    else { s with stream_error_count := c }

/-- The read loop run over a sequence of read outcomes (`true` = chunk
read, `false` = `IOError`), starting from the fresh counters of
`_record_loop` entry (line 196). -/
def run_reads (events : List Bool) : ErrCounters :=
  events.foldl read_step ⟨0, 0⟩

/-! ### Recognition poll loop (`shazam_realtime_recognizer.py`) -/

/-- How one run of `_recognition_loop` ended: `matchFound` via the
`stop_on_found` break (line 138-140), `timedOut` via the budget break
(lines 149-152), `outOfFuel` when the supplied iteration budget of the
embedding ran out before the loop stopped. -/
inductive SchedOutcome
  | matchFound
  | timedOut
  | outOfFuel
  deriving DecidableEq, Repr

/-- Loop-local state of `_recognition_loop`: `next_recognize_time`
(line 114), the number of completed `shazam.recognize` calls, and the
arguments passed to `recognition_callback` so far (`some n` is a match
result from call number `n`, `none` is a no-match tick). -/
structure SchedState where
  next_recognize_time : ℚ
  calls : ℕ
  callback_log : List (Option ℕ)
  deriving DecidableEq, Repr

/-- One iteration of the `while self._is_recognizing` body
(`shazam_realtime_recognizer.py` lines 115-154).  `S` is
`recognize_seconds`, `I` is `recognize_interval`; `script n` is the
outcome of the `n`-th recognition call (`true` when `out.get("track")` is
truthy); `ogg_empty` says whether `_get_recent_ogg_bytes` returned a falsy
value this iteration; `recorded_time` is the value read at line 116.
Returns the updated state and `some outcome` when the body hits a
`break`. -/
def sched_iter (S I : ℚ) (stop_on_found : Bool) (script : ℕ → Bool)
    (ogg_empty : Bool) (recorded_time : ℚ) (st : SchedState) :
    SchedState × Option SchedOutcome :=
  if recorded_time < st.next_recognize_time then (st, none)
  else
    let st1 : SchedState := { st with next_recognize_time := st.next_recognize_time + I }
    if ogg_empty then (st1, none)
    else
      let matched := script st1.calls
      let st2 : SchedState :=
        { st1 with calls := st1.calls + 1,
                   callback_log :=
                     st1.callback_log ++ [if matched then some st1.calls else none] }
      if matched && stop_on_found then (st2, some SchedOutcome.matchFound)
      else if S ≤ recorded_time then (st2, some SchedOutcome.timedOut)
      else (st2, none)

/-- The poll loop itself, iterated with explicit fuel from iteration index
`i`: the externally supplied sequences give, per iteration, whether the
extracted/converted window was falsy and the recorded duration observed
at line 116. -/
def sched_run (S I : ℚ) (stop_on_found : Bool) (script : ℕ → Bool)
    (ogg_empty : ℕ → Bool) (recorded : ℕ → ℚ) :
    ℕ → ℕ → SchedState → SchedState × SchedOutcome
  | 0, _, st => (st, SchedOutcome.outOfFuel)
  | fuel + 1, i, st =>
      match sched_iter S I stop_on_found script (ogg_empty i) (recorded i) st with
      | (st1, some o) => (st1, o)
      | (st1, none) =>
          sched_run S I stop_on_found script ogg_empty recorded fuel (i + 1) st1

/-- Loop entry (`shazam_realtime_recognizer.py` line 114):
`next_recognize_time = self.recognize_interval`, no calls made yet. -/
def sched_init (I : ℚ) : SchedState := ⟨I, 0, []⟩

/-- The poll loop eventually hits a `break` (rather than running forever)
for the given parameters and external outcome sequences. -/
def sched_terminates (S I : ℚ) (stop_on_found : Bool) (script : ℕ → Bool)
    (ogg_empty : ℕ → Bool) (recorded : ℕ → ℚ) : Prop :=
  ∃ fuel, (sched_run S I stop_on_found script ogg_empty recorded fuel 0
    (sched_init I)).2 ≠ SchedOutcome.outOfFuel

/-! ### Recognizer construction (`ShazamRealtimeRecognizer.__init__`) -/

/-- The constructor parameters of `ShazamRealtimeRecognizer` that feed the
recorder (`shazam_realtime_recognizer.py` lines 30-75). -/
structure RecognizerCfg where
  rate : ℕ
  chunk_size : ℕ
  recognize_seconds : ℤ
  recognize_interval : ℤ
  deriving DecidableEq, Repr

/-- `shazam_realtime_recognizer.py` line 74: the recorder is built with
`buffer_seconds = self.recognize_seconds + self.recognize_interval`. -/
def recorder_buffer_seconds (cfg : RecognizerCfg) : ℤ :=
  cfg.recognize_seconds + cfg.recognize_interval

/-! ### Helper lemmas -/

/-- Joining chunks of one common length `m` yields `count * m` bytes. -/
theorem flatten_length_uniform (l : List Chunk) (m : ℕ)
    (h : ∀ c ∈ l, c.length = m) : l.flatten.length = l.length * m := by
  induction l with
  | nil => simp
  | cons c t ih =>
      have hc : c.length = m := h c (by simp)
      have ht : t.flatten.length = t.length * m :=
        ih fun x hx => h x (by simp [hx])
      simp only [List.flatten_cons, List.length_append, List.length_cons, hc, ht]
      ring

/-- Appending to the bounded deque always lands at `min (len + 1) cap`. -/
theorem dequeAppend_length (cap : ℕ) (buf : List Chunk) (c : Chunk) :
    (dequeAppend cap buf c).length = min (buf.length + 1) cap := by
  simp only [dequeAppend, List.length_drop, List.length_append, List.length_cons,
    List.length_nil]
  omega

/-- Folding any chunk sequence into the bounded deque keeps it within
capacity. -/
theorem foldl_dequeAppend_length_le (cap : ℕ) (cs : List Chunk) :
    ∀ buf : List Chunk, buf.length ≤ cap →
      (cs.foldl (dequeAppend cap) buf).length ≤ cap := by
  induction cs with
  | nil => intro buf h; simpa using h
  | cons c t ih =>
      intro buf h
      simp only [List.foldl_cons]
      exact ih _ (by rw [dequeAppend_length]; omega)

/-- Closed form for the error counters after a run of `k` consecutive
`IOError`s starting from arbitrary counters. -/
theorem run_reads_replicate_aux :
    ∀ (k c r : ℕ), (List.replicate k false).foldl read_step ⟨c, r⟩
      = ⟨c + k, r + (c + k - max c max_stream_errors)⟩ := by
  intro k
  induction k with
  | zero => intro c r; simp
  | succ k ih =>
      intro c r
      have hstep : read_step ⟨c, r⟩ false
          = if max_stream_errors < c + 1 then ⟨c + 1, r + 1⟩ else ⟨c + 1, r⟩ := by
        simp only [read_step, Bool.false_eq_true, if_false]
      rw [List.replicate_succ, List.foldl_cons, hstep]
      by_cases hc : max_stream_errors < c + 1
      · rw [if_pos hc, ih]
        simp only [ErrCounters.mk.injEq]
        exact ⟨by omega, by omega⟩
      · rw [if_neg hc, ih]
        simp only [ErrCounters.mk.injEq]
        exact ⟨by omega, by omega⟩

/-! ### Claim theorems -/

/-- C3: for every sequence of appends starting from the empty buffer, the
ring buffer's length never exceeds `capacity =
floor(sample_rate / chunk_frames × buffer_seconds)`, and an append that
occurs at full (positive) capacity evicts exactly the oldest chunk,
preserving strict FIFO order. -/
theorem c3_ring_buffer_capacity_fifo (rate chunk_size : ℕ) (buffer_seconds : ℤ)
    (cs : List Chunk) (buf : List Chunk) (c : Chunk)
    (hfull : buf.length = buffer_max_chunks rate chunk_size buffer_seconds)
    (hpos : 0 < buffer_max_chunks rate chunk_size buffer_seconds) :
    (cs.foldl (dequeAppend (buffer_max_chunks rate chunk_size buffer_seconds)) []).length
        ≤ buffer_max_chunks rate chunk_size buffer_seconds
    ∧ dequeAppend (buffer_max_chunks rate chunk_size buffer_seconds) buf c
        = buf.tail ++ [c] := by
  constructor
  · exact foldl_dequeAppend_length_le _ cs [] (by simp)
  · obtain ⟨b, bs, rfl⟩ : ∃ b bs, buf = b :: bs := by
      cases buf with
      | nil => exact absurd hfull.symm (by simp; omega)
      | cons b bs => exact ⟨b, bs, rfl⟩
    simp only [dequeAppend, List.cons_append, List.length_cons]
    rw [show bs.length + 1 + 1 - buffer_max_chunks rate chunk_size buffer_seconds = 1 by
      simp only [List.length_cons] at hfull; omega]
    simp

/-- C3 witness: a concrete fold stays within the capacity
`buffer_max_chunks 16000 1024 6 = 93`, and appending to a full 93-chunk
buffer drops exactly the oldest chunk. -/
theorem c3_ring_buffer_capacity_fifo_witness :
    (([[1], [2]] : List Chunk).foldl
        (dequeAppend (buffer_max_chunks 16000 1024 6)) []).length
        ≤ buffer_max_chunks 16000 1024 6
    ∧ dequeAppend (buffer_max_chunks 16000 1024 6) (List.replicate 93 [0]) [7]
        = (List.replicate 93 ([0] : Chunk)).tail ++ [[7]] :=
  c3_ring_buffer_capacity_fifo 16000 1024 6 [[1], [2]] (List.replicate 93 [0]) [7]
    (by rw [List.length_replicate]; norm_num [buffer_max_chunks]; decide)
    (by norm_num [buffer_max_chunks])

/-- C6 counterexample: a run of exactly `_max_stream_errors = 5`
consecutive read errors — a run that *reaches* the threshold — triggers
`0` reset attempts, not exactly one: the code resets only when the
counter strictly exceeds the threshold. -/
theorem c6_counterexample :
    (run_reads (List.replicate max_stream_errors false)).resets = 0
    ∧ ¬ (run_reads (List.replicate max_stream_errors false)).resets = 1 := by
  decide

/-- C6 (amended): a run of at most 5 consecutive transient read errors
never triggers a stream reset; a run of exactly 6 consecutive errors (the
first to strictly exceed the threshold `_max_stream_errors = 5`) triggers
exactly one reset attempt; in general a run of `k` consecutive errors
triggers `k - 5` reset attempts (truncated subtraction). -/
theorem c6_reset_threshold :
    (∀ k : ℕ, k ≤ max_stream_errors →
      (run_reads (List.replicate k false)).resets = 0)
    ∧ (run_reads (List.replicate (max_stream_errors + 1) false)).resets = 1
    ∧ ∀ k : ℕ, (run_reads (List.replicate k false)).resets = k - max_stream_errors := by
  have hgen : ∀ k : ℕ, (run_reads (List.replicate k false)).resets = k - max_stream_errors := by
    intro k
    rw [run_reads, run_reads_replicate_aux]
    simp [max_stream_errors]
  exact ⟨fun k hk => by rw [hgen k]; omega, by rw [hgen]; simp [max_stream_errors], hgen⟩

/-- C6 witness: a run of 3 consecutive errors (below the threshold)
triggers no reset. -/
theorem c6_reset_threshold_witness :
    (run_reads (List.replicate 3 false)).resets = 0 :=
  c6_reset_threshold.1 3 (by norm_num [max_stream_errors])

/-- C4 counterexample: from the idle state, when opening the audio device
fails, `start()` nevertheless returns `True` — it returns `False` only
when already recording — so the claim that it returns false synchronously
on open failure is false on the code. -/
theorem c4_counterexample :
    (⟨false, 0, false, []⟩ : RecorderState).is_recording = false
    ∧ (start_then_open false ⟨false, 0, false, []⟩).1 = true := by
  decide

/-- C4 (amended): when `start()` is called while not recording and the
device open fails, `start()` returns `true` (not false: the open happens
asynchronously in the spawned thread), and the spawned capture thread
detects the failure, clears the recording flag and exits immediately, so
no capture task is leaked and the thread count is unchanged. -/
theorem c4_open_failure_no_leak (s : RecorderState) (h : s.is_recording = false) :
    (start_then_open false s).1 = true
    ∧ (start_then_open false s).2.is_recording = false
    ∧ (start_then_open false s).2.task_count = s.task_count := by
  simp [start_then_open, start, record_loop_start, h]

/-- C4 witness: the amended behaviour at the concrete idle state. -/
theorem c4_open_failure_no_leak_witness :
    (start_then_open false ⟨false, 0, false, []⟩).1 = true
    ∧ (start_then_open false ⟨false, 0, false, []⟩).2.is_recording = false
    ∧ (start_then_open false ⟨false, 0, false, []⟩).2.task_count
        = (⟨false, 0, false, []⟩ : RecorderState).task_count :=
  c4_open_failure_no_leak ⟨false, 0, false, []⟩ rfl

/-- C5: when recording is already in progress (one capture task running),
a second `start()` call returns `false`, changes nothing — in particular
it spawns no new capture task — and exactly one capture task remains. -/
theorem c5_second_start_rejected (s : RecorderState)
    (h : s.is_recording = true) (h1 : s.task_count = 1) :
    (start s).1 = false ∧ (start s).2 = s ∧ (start s).2.task_count = 1 := by
  simp [start, h, h1]

/-- C5 witness: calling `start()` twice in a row from the idle state — the
second call is rejected and one task remains. -/
theorem c5_second_start_rejected_witness :
    (start (start ⟨false, 0, false, []⟩).2).1 = false
    ∧ (start (start ⟨false, 0, false, []⟩).2).2 = (start ⟨false, 0, false, []⟩).2
    ∧ (start (start ⟨false, 0, false, []⟩).2).2.task_count = 1 :=
  c5_second_start_rejected _ (by decide) (by decide)

/-- C9: `stop()` is idempotent on every quiescent-consistent state: it
raises nothing (it is a total function of the state), the first call ends
with the stream closed and the audio buffer empty, and a second call is a
no-op — the state, hence the closed stream and the empty buffer, are
unchanged. -/
theorem c9_stop_idempotent (s : RecorderState) (h : RecorderQuiescent s) :
    (stop s).stream_open = false
    ∧ (stop s).audio_buffer = []
    ∧ stop (stop s) = stop s := by
  by_cases hr : s.is_recording
  · simp [stop, close_stream, hr]
  · have hq := h (by simpa using hr)
    simp [stop, close_stream, hr, hq.2.1, hq.2.2]

/-- C9 witness: stopping twice from a live recording state. -/
theorem c9_stop_idempotent_witness :
    (stop ⟨true, 1, true, [[1, 2]]⟩).stream_open = false
    ∧ (stop ⟨true, 1, true, [[1, 2]]⟩).audio_buffer = []
    ∧ stop (stop ⟨true, 1, true, [[1, 2]]⟩) = stop ⟨true, 1, true, [[1, 2]]⟩ :=
  c9_stop_idempotent ⟨true, 1, true, [[1, 2]]⟩ (by simp [RecorderQuiescent])

/-- C10: every constructed recognizer passes
`buffer_seconds = recognize_seconds + recognize_interval` to its recorder,
so (for a nonnegative poll interval) the per-tick trailing window of
`recognize_seconds` never exceeds the buffer retention: both in seconds
and in chunks, the window's chunk count stays within the ring buffer's
capacity. -/
theorem c10_buffer_retention (rate chunk_size w : ℕ) (S I : ℤ) (hI : 0 ≤ I) :
    recorder_buffer_seconds ⟨rate, chunk_size, S, I⟩ = S + I
    ∧ S ≤ recorder_buffer_seconds ⟨rate, chunk_size, S, I⟩
    ∧ num_chunks_to_get ⟨rate, chunk_size, w⟩ (S : ℚ)
        ≤ buffer_max_chunks rate chunk_size
            (recorder_buffer_seconds ⟨rate, chunk_size, S, I⟩) := by
  refine ⟨rfl, le_add_of_nonneg_right hI, ?_⟩
  unfold num_chunks_to_get buffer_max_chunks recorder_buffer_seconds
  have h1 : ((rate : ℚ) / (chunk_size : ℚ)) * ((S : ℤ) : ℚ)
      ≤ ((rate : ℚ) / (chunk_size : ℚ)) * (((S + I : ℤ)) : ℚ) := by
    apply mul_le_mul_of_nonneg_left _ (by positivity)
    have hIq : (0 : ℚ) ≤ (I : ℚ) := by exact_mod_cast hI
    push_cast
    linarith
  exact Int.toNat_le_toNat (Int.floor_le_floor h1)

/-- C10 witness: the default configuration (`recognize_seconds = 5`,
`recognize_interval = 1`, 16 kHz, 1024-frame chunks). -/
theorem c10_buffer_retention_witness :
    recorder_buffer_seconds ⟨16000, 1024, 5, 1⟩ = 5 + 1
    ∧ (5 : ℤ) ≤ recorder_buffer_seconds ⟨16000, 1024, 5, 1⟩
    ∧ num_chunks_to_get ⟨16000, 1024, 2⟩ ((5 : ℤ) : ℚ)
        ≤ buffer_max_chunks 16000 1024 (recorder_buffer_seconds ⟨16000, 1024, 5, 1⟩) :=
  c10_buffer_retention 16000 1024 2 5 1 (by norm_num)

/-- C1 counterexample: with `rate = 16000`, `chunk_frames = 1024`,
`d = 5` and a 79-chunk buffer (recorded duration `5.056 s > 5 s`), the
code computes `int(16000 / 1024 * 5) = 78` chunks, while the claimed
`ceil(5 × 16000 / 1024) = 79` chunks would be the entire buffer: the
returned bytes differ from the claimed window. -/
theorem c1_ceil_counterexample :
    get_recent_audio_bytes ⟨16000, 1024, 2⟩ (List.replicate 79 [0]) 5
      ≠ snapshot_suffix_ceil_spec ⟨16000, 1024, 2⟩ (List.replicate 79 [0]) 5 := by
  have hnum : num_chunks_to_get ⟨16000, 1024, 2⟩ 5 = 78 := by
    unfold num_chunks_to_get
    norm_num
    decide
  have h1 : (get_recent_audio_bytes ⟨16000, 1024, 2⟩ (List.replicate 79 [0]) 5).length
      = 78 := by
    unfold get_recent_audio_bytes get_recent_chunks
    rw [hnum]
    rw [if_neg (by norm_num), if_neg (by norm_num),
      if_neg (by simp), if_neg (by simp)]
    rw [List.length_replicate, show min 78 79 = 78 from rfl, List.drop_replicate]
    rw [flatten_length_uniform _ 1 (fun c hc => by rw [List.eq_of_mem_replicate hc]; rfl)]
    simp
  have h2 : (snapshot_suffix_ceil_spec ⟨16000, 1024, 2⟩ (List.replicate 79 [0]) 5).length
      = 79 := by
    have hceil : (⌈(((⟨16000, 1024, 2⟩ : AudioRecorderCfg).rate : ℚ))
        / (((⟨16000, 1024, 2⟩ : AudioRecorderCfg).chunk_size : ℚ)) * 5⌉).toNat = 79 := by
      have h79 : (⌈(((⟨16000, 1024, 2⟩ : AudioRecorderCfg).rate : ℚ))
          / (((⟨16000, 1024, 2⟩ : AudioRecorderCfg).chunk_size : ℚ)) * 5⌉ : ℤ) = 79 := by
        norm_num [Int.ceil_eq_iff]
      rw [h79]
      decide
    unfold snapshot_suffix_ceil_spec
    rw [if_neg (by norm_num), if_neg (by simp), hceil]
    simp only [List.length_replicate, min_self, Nat.sub_self, List.drop_zero]
    rw [flatten_length_uniform _ 1 (fun c hc => by rw [List.eq_of_mem_replicate hc]; rfl)]
    simp
  intro h
  rw [h, h2] at h1
  exact absurd h1 (by norm_num)

/-- C1 (amended): window extraction, for positive rate and chunk size.
`d ≤ 0` gives empty bytes; an empty buffer gives empty bytes; `d` at
least the recorded duration gives the whole buffer in append order; and
for `0 < d` strictly below the recorded duration, provided the computed
chunk count `n = floor(d × sample_rate / chunk_frames)` is at least 1,
the result is the concatenation, in append order, of exactly the `n`
most recent (tail-aligned) chunks.  (Two corrections to the claim: the
code's `int()` is a floor, not a ceiling; and when `n = 0` the Python
slice `[-0:]` returns the entire buffer, hence the `1 ≤ n` proviso.) -/
theorem c1_snapshot_suffix_floor (cfg : AudioRecorderCfg) (buf : List Chunk) (d : ℚ)
    (hrate : 0 < cfg.rate) (hchunk : 0 < cfg.chunk_size) :
    (d ≤ 0 → get_recent_audio_bytes cfg buf d = [])
    ∧ (buf = [] → get_recent_audio_bytes cfg buf d = [])
    ∧ (get_recorded_duration cfg buf ≤ d →
        get_recent_audio_bytes cfg buf d = buf.flatten)
    ∧ (0 < d → d < get_recorded_duration cfg buf → 1 ≤ num_chunks_to_get cfg d →
        num_chunks_to_get cfg d < buf.length
        ∧ get_recent_audio_bytes cfg buf d
            = (buf.drop (buf.length - num_chunks_to_get cfg d)).flatten) := by
  have hR : (0 : ℚ) < (cfg.rate : ℚ) := by exact_mod_cast hrate
  have hC : (0 : ℚ) < (cfg.chunk_size : ℚ) := by exact_mod_cast hchunk
  refine ⟨?_, ?_, ?_, ?_⟩
  · intro h
    simp [get_recent_audio_bytes, get_recent_chunks, h]
  · intro h
    subst h
    simp [get_recent_audio_bytes, get_recent_chunks]
  · intro hle
    by_cases hbuf : buf = []
    · subst hbuf
      simp [get_recent_audio_bytes, get_recent_chunks]
    · have hlen : 0 < buf.length := List.length_pos.mpr hbuf
      have hlenq : (0 : ℚ) < (buf.length : ℚ) := by exact_mod_cast hlen
      have hrecpos : 0 < get_recorded_duration cfg buf := by
        unfold get_recorded_duration
        positivity
      have hd : 0 < d := lt_of_lt_of_le hrecpos hle
      unfold get_recorded_duration at hle
      have hLC : (buf.length : ℚ) * (cfg.chunk_size : ℚ) ≤ d * (cfg.rate : ℚ) :=
        (div_le_iff₀ hR).mp hle
      have hfl : (buf.length : ℤ) ≤ ⌊(cfg.rate : ℚ) / (cfg.chunk_size : ℚ) * d⌋ := by
        rw [Int.le_floor]
        push_cast
        rw [div_mul_eq_mul_div, le_div_iff₀ hC]
        linarith [mul_comm d (cfg.rate : ℚ)]
      have hnum : buf.length ≤ num_chunks_to_get cfg d := by
        unfold num_chunks_to_get
        omega
      unfold get_recent_audio_bytes get_recent_chunks
      rw [if_neg (not_le.mpr hd), if_neg (by omega), if_neg hbuf,
        if_neg (by rw [min_eq_right hnum]; omega), min_eq_right hnum]
      simp
  · intro hd hlt h1
    have hbuf : buf ≠ [] := by
      intro h
      subst h
      unfold get_recorded_duration at hlt
      simp at hlt
      linarith
    have hlen : 0 < buf.length := List.length_pos.mpr hbuf
    unfold get_recorded_duration at hlt
    have hfl_lt : ⌊(cfg.rate : ℚ) / (cfg.chunk_size : ℚ) * d⌋ < (buf.length : ℤ) := by
      rw [Int.floor_lt]
      push_cast
      rw [div_mul_eq_mul_div, div_lt_iff₀ hC]
      have h2 := (lt_div_iff₀ hR).mp hlt
      linarith [mul_comm d (cfg.rate : ℚ)]
    have hnum_lt : num_chunks_to_get cfg d < buf.length := by
      unfold num_chunks_to_get
      omega
    refine ⟨hnum_lt, ?_⟩
    unfold get_recent_audio_bytes get_recent_chunks
    rw [if_neg (not_le.mpr hd), if_neg (by omega), if_neg hbuf,
      if_neg (by rw [min_eq_left (le_of_lt hnum_lt)]; omega),
      min_eq_left (le_of_lt hnum_lt)]

/-- C1 witness: the amended floor behaviour at `rate = 16000`,
`chunk_frames = 1024`, `d = 5`, with an 80-chunk buffer (recorded
duration `5.12 s`): exactly `floor(78.125) = 78` tail chunks come back. -/
theorem c1_snapshot_suffix_floor_witness :
    num_chunks_to_get ⟨16000, 1024, 2⟩ 5 < (List.replicate 80 ([0] : Chunk)).length
    ∧ get_recent_audio_bytes ⟨16000, 1024, 2⟩ (List.replicate 80 [0]) 5
        = ((List.replicate 80 ([0] : Chunk)).drop
            ((List.replicate 80 ([0] : Chunk)).length
              - num_chunks_to_get ⟨16000, 1024, 2⟩ 5)).flatten :=
  (c1_snapshot_suffix_floor ⟨16000, 1024, 2⟩ (List.replicate 80 [0]) 5
      (by norm_num) (by norm_num)).2.2.2
    (by norm_num)
    (by unfold get_recorded_duration; rw [List.length_replicate]; norm_num)
    (by unfold num_chunks_to_get; norm_num)

/-- C2: with `sample_rate = 16000` and `chunk_frames = 1024`, once at
least 78 chunks are buffered (true after more than 5 s of capture),
`get_recent_audio(5)` returns exactly `floor(5 × 16000 / 1024) = 78`
chunks — `78 × 1024 × sample_width` bytes when every captured chunk
holds `1024 × sample_width` bytes. -/
theorem c2_recent_audio_five_seconds (w : ℕ) (buf : List Chunk)
    (hlen : 78 ≤ buf.length)
    (hchunks : ∀ c ∈ buf, c.length = 1024 * w) :
    (get_recent_chunks ⟨16000, 1024, w⟩ buf 5).length = 78
    ∧ (get_recent_audio_bytes ⟨16000, 1024, w⟩ buf 5).length = 78 * (1024 * w) := by
  have hnum : num_chunks_to_get ⟨16000, 1024, w⟩ 5 = 78 := by
    unfold num_chunks_to_get
    norm_num
    decide
  have hbuf : buf ≠ [] := by
    intro h
    subst h
    simp at hlen
  have hsel : get_recent_chunks ⟨16000, 1024, w⟩ buf 5 = buf.drop (buf.length - 78) := by
    unfold get_recent_chunks
    rw [hnum]
    rw [if_neg (by norm_num), if_neg (by norm_num), if_neg hbuf,
      if_neg (by omega), min_eq_left hlen]
  have hdl : (buf.drop (buf.length - 78)).length = 78 := by
    rw [List.length_drop]
    omega
  constructor
  · rw [hsel, hdl]
  · unfold get_recent_audio_bytes
    rw [hsel,
      flatten_length_uniform _ _ (fun c hc => hchunks c (List.mem_of_mem_drop hc)),
      hdl]

/-- C2 witness: a concrete 80-chunk buffer of 2048-byte chunks
(`sample_width = 2`) yields 78 chunks and `78 × 1024 × 2` bytes. -/
theorem c2_recent_audio_five_seconds_witness :
    (get_recent_chunks ⟨16000, 1024, 2⟩
        (List.replicate 80 (List.replicate 2048 0)) 5).length = 78
    ∧ (get_recent_audio_bytes ⟨16000, 1024, 2⟩
        (List.replicate 80 (List.replicate 2048 0)) 5).length = 78 * (1024 * 2) :=
  c2_recent_audio_five_seconds 2 (List.replicate 80 (List.replicate 2048 0))
    (by rw [List.length_replicate]; norm_num)
    (fun c hc => by rw [List.eq_of_mem_replicate hc, List.length_replicate])

/-- While every fired tick completes with nonempty converted bytes and no
match, `next_recognize_time` can only stay at or below `S + I`; once the
iteration index reaches `N` (where the recorded duration has passed
`S + I`), the tick fires and the budget check at the end of the body
breaks the loop with a timeout. -/
theorem sched_run_timeout_aux (S I : ℚ) (sof : Bool) (script : ℕ → Bool)
    (ogg_empty : ℕ → Bool) (recorded : ℕ → ℚ) (N : ℕ)
    (hI : 0 ≤ I)
    (hscript : ∀ n, script n = false)
    (hogg : ∀ i, ogg_empty i = false)
    (hrec : ∀ i, N ≤ i → S + I ≤ recorded i) :
    ∀ fuel i st, i + fuel = N + 1 → i ≤ N →
      st.next_recognize_time ≤ S + I →
      (sched_run S I sof script ogg_empty recorded fuel i st).2
        = SchedOutcome.timedOut := by
  intro fuel
  induction fuel with
  | zero => intro i st h1 h2 _; omega
  | succ f ih =>
      intro i st h1 h2 hnext
      by_cases hw : recorded i < st.next_recognize_time
      · have hiN : i ≠ N := by
          intro he
          subst he
          exact absurd (hrec i le_rfl) (not_le.mpr (lt_of_lt_of_le hw hnext))
        have hstep : sched_iter S I sof script (ogg_empty i) (recorded i) st
            = (st, none) := by
          unfold sched_iter
          rw [if_pos hw]
        simp only [sched_run, hstep]
        exact ih (i + 1) st (by omega) (by omega) hnext
      · by_cases hb : S ≤ recorded i
        · simp [sched_run, sched_iter, hw, hogg i, hscript, hb]
        · have hiN : i ≠ N := by
            intro he
            subst he
            have := hrec i le_rfl
            have : S ≤ recorded i := by linarith
            exact hb this
          have hnext1 : st.next_recognize_time + I ≤ S + I := by
            have hge : st.next_recognize_time ≤ recorded i := not_lt.mp hw
            have hlt : recorded i < S := not_le.mp hb
            linarith
          simp only [sched_run, sched_iter, if_neg hw, hogg i, Bool.false_eq_true,
            if_false, hscript, Bool.false_and, if_neg hb]
          exact ih (i + 1) _ (by omega) (by omega) hnext1

/-- C7 counterexample: a session in which every window conversion fails
(`_get_recent_ogg_bytes` falsy each tick — e.g. the ogg encoder failing
every call) while the recognition collaborator never returns a match:
line 127's `continue` skips the budget check at line 149 on every
iteration, so the poll loop never stops, no matter how much audio has
been recorded (here the recorded duration is 6 s from the start with
`recognize_seconds = 5`). -/
theorem c7_counterexample :
    ¬ sched_terminates 5 1 true (fun _ => false) (fun _ => true)
        (fun _ => (6 : ℚ)) := by
  have hall : ∀ fuel i st,
      (sched_run 5 1 true (fun _ => false) (fun _ => true) (fun _ => (6 : ℚ))
        fuel i st).2 = SchedOutcome.outOfFuel := by
    intro fuel
    induction fuel with
    | zero => intro i st; rfl
    | succ f ih =>
        intro i st
        by_cases hw : (6 : ℚ) < st.next_recognize_time
        · have hstep : sched_iter 5 1 true (fun _ => false) true (6 : ℚ) st
              = (st, none) := by
            unfold sched_iter
            rw [if_pos hw]
          simp only [sched_run, hstep]
          exact ih (i + 1) st
        · have hstep : sched_iter 5 1 true (fun _ => false) true (6 : ℚ) st
              = ({ st with next_recognize_time := st.next_recognize_time + 1 },
                 none) := by
            unfold sched_iter
            rw [if_neg hw, if_pos rfl]
          simp only [sched_run, hstep]
          exact ih (i + 1) _
  rintro ⟨fuel, hne⟩
  exact hne (hall fuel 0 (sched_init 1))

/-- C7 (amended): in every session where the recognition collaborator
never returns a match *and each iteration's extracted window converts to
nonempty bytes*, the poll loop terminates with a timeout: as soon as the
recorded duration has reached `recognize_seconds + recognize_interval`
(so the tick at the pending deadline necessarily fires), the budget check
`recognize_seconds <= recorded_time` at the end of that tick calls
`stop_recognition()` and breaks the loop, so the session never loops
indefinitely and gives up after about `recognize_seconds` of recorded
audio. -/
theorem c7_budget_timeout (S I : ℚ) (sof : Bool) (script : ℕ → Bool)
    (ogg_empty : ℕ → Bool) (recorded : ℕ → ℚ) (N : ℕ)
    (hS : 0 ≤ S) (hI : 0 ≤ I)
    (hscript : ∀ n, script n = false)
    (hogg : ∀ i, ogg_empty i = false)
    (hrec : ∀ i, N ≤ i → S + I ≤ recorded i) :
    (sched_run S I sof script ogg_empty recorded (N + 1) 0 (sched_init I)).2
      = SchedOutcome.timedOut :=
  sched_run_timeout_aux S I sof script ogg_empty recorded N hI hscript hogg hrec
    (N + 1) 0 (sched_init I) (by omega) (by omega)
    (by simp only [sched_init]; linarith)

/-- C7 witness: `recognize_seconds = 5`, `recognize_interval = 1`, a
collaborator that never matches, conversion always succeeding, and the
recorded duration reaching 6 s at iteration 6: the loop times out. -/
theorem c7_budget_timeout_witness :
    (sched_run 5 1 true (fun _ => false) (fun _ => false) (fun i => (i : ℚ)) 7 0
      (sched_init 1)).2 = SchedOutcome.timedOut :=
  c7_budget_timeout 5 1 true (fun _ => false) (fun _ => false) (fun i => (i : ℚ)) 6
    (by norm_num) (by norm_num) (fun n => rfl) (fun i => rfl)
    (fun i hi => by
      have h6 : (6 : ℚ) ≤ (i : ℚ) := by exact_mod_cast hi
      linarith)

/-- C8: with `stop_on_found = true` and a collaborator scripted to return
no-match on its first two calls and a match on the 3rd (`recognize_seconds
= 5`, `recognize_interval = 1`, recorded duration `i` at iteration `i`):
the loop performs exactly 3 fired poll ticks, invokes the callback exactly
3 times — twice with `None`, once with the match result of call 2 — and
then stops via the `stop_on_found` break. -/
theorem c8_scripted_match_third_tick :
    sched_run 5 1 true (fun n => n == 2) (fun _ => false) (fun i => (i : ℚ)) 6 0
        (sched_init 1)
      = (⟨4, 3, [none, none, some 2]⟩, SchedOutcome.matchFound) := by
  norm_num [sched_run, sched_iter, sched_init]

end ShazamRealtime
